import Mathlib

/-!
Verification development for the hive crowdsourcing engine
(`hive/hive.go`).  The Go code stores all durable state in an external
document store (Elasticsearch); here the store is embedded as explicit
lists of records and every engine operation is a pure function threading
that state.  JSON payloads (`map[string]interface{}` in Go) are embedded
as association lists of scalar values, matching the flat answer payloads
used throughout the repository README and test suite; `reflect.DeepEqual`
on payloads becomes structural (decidable) equality on that type.
Randomness (`rand.Intn`) is embedded as an explicit choice argument, and
store queries are embedded with immediate (sequentially consistent)
visibility of writes.
-/

namespace Hive

deriving instance DecidableEq for Except

/-- A scalar JSON value as it appears in a submitted-data field. -/

inductive JVal where
  | null
  | str (s : String)
  | num (n : Int)
  | boolean (b : Bool)
deriving DecidableEq

/-- The `SubmittedData` (Go `map[string]interface{}`): one worker answer, a
map from field name to value.  Embedded as an association list. -/

abbrev SubmittedData := List (String × JVal)

/-- The submitted-data entry an asset holds for one task: either JSON
`null` (imported placeholder) or an agreed answer object. -/

inductive JTask where
  | null
  | obj (fields : SubmittedData)
deriving DecidableEq

/-- The `SubmittedData` field of an asset: task name to entry. -/

abbrev AssetData := List (String × JTask)

/-- The `Counts` (Go `map[string]int`), as an association list. -/

abbrev Counts := List (String × Int)

/-- Go map read with the zero value for a missing key. -/

def countsGet : Counts → String → Int
  | [], _ => 0
  | e :: es, k => if e.1 == k then e.2 else countsGet es k

/-- Go map write: replace the entry if the key is present, else add it. -/

def countsSet : Counts → String → Int → Counts
  | [], k, v => [(k, v)]
  | e :: es, k, v => if e.1 == k then (k, v) :: es else e :: countsSet es k v

/-- Go `m[k] += d` (also inserts the key when missing). -/

def countsAdd (c : Counts) (k : String) (d : Int) : Counts :=
  countsSet c k (countsGet c k + d)

/-- Go `_, ok := m[k]` on a counts map. -/

def countsHas (c : Counts) (k : String) : Bool :=
  c.any (fun e => e.1 == k)

/-- Lookup of a task entry on the asset-side `SubmittedData`. -/

def adGet : AssetData → String → Option JTask
  | [], _ => none
  | e :: es, k => if e.1 == k then some e.2 else adGet es k

/-- Go map write on the asset-side `SubmittedData`. -/

def adSet : AssetData → String → JTask → AssetData
  | [], k, v => [(k, v)]
  | e :: es, k, v => if e.1 == k then (k, v) :: es else e :: adSet es k v

/-- The Go test `asset.SubmittedData[name] == nil` (and equally the
"field missing or null" store filter): the entry is absent or `null`. -/

def adIsNil (d : AssetData) (k : String) : Bool :=
  match adGet d k with
  | none => true
  | some .null => true
  | some (.obj _) => false

/-- The `Asset` (work item) record. -/

structure Asset where
  Id : String
  Project : String
  Url : String
  Name : String
  SubmittedData : AssetData
  Favorited : Bool
  Verified : Bool
  Counts : Counts
deriving DecidableEq

/-- The `Assignment` record; `Asset` is an embedded snapshot, not a reference. -/

structure Assignment where
  Id : String
  User : String
  Project : String
  Task : String
  Asset : Asset
  State : String
  SubmittedData : SubmittedData
deriving DecidableEq

/-- The `userFavorites`: map from asset id to an owned asset copy. -/

abbrev UserFavorites := List (String × Asset)

/-- The `User` (worker) record. -/

structure User where
  Id : String
  Name : String
  Email : String
  Project : String
  ExternalId : String
  Counts : Counts
  Favorites : UserFavorites
  VerifiedAssets : List String
deriving DecidableEq

/-- The `AssignmentCriteria`: map from prerequisite task name to a rule
(field to expected value); an empty rule is the "no data yet" rule. -/

structure AssignmentCriteria where
  SubmittedData : List (String × SubmittedData)
deriving DecidableEq

/-- The `CompletionCriteria`: consensus thresholds. -/

structure CompletionCriteria where
  Total : Int
  Matching : Int
deriving DecidableEq

/-- The `Task` record. -/

structure Task where
  Id : String
  Project : String
  Name : String
  Description : String
  CurrentState : String
  AssignmentCriteria : AssignmentCriteria
  CompletionCriteria : CompletionCriteria
deriving DecidableEq

/-- The external document store, embedded as explicit record lists (one
per Elasticsearch type used by the engine core). -/

structure Store where
  assets : List Asset
  assignments : List Assignment
  tasks : List Task
  users : List User
deriving DecidableEq

/-- Lookup by document id, the embedding of `EsConn.GetSource`. -/

def findBy (key : α → String) : List α → String → Option α
  | [], _ => none
  | b :: bs, i => if key b == i then some b else findBy key bs i

/-- Upsert by document id: replace the record carrying the same id, else
append.  This is the embedding of `EsConn.Index(s.Index, type, id, nil, r)`. -/

def upsertBy (key : α → String) : List α → α → List α
  | [], a => [a]
  | b :: bs, a => if key b == key a then a :: bs else b :: upsertBy key bs a

def indexAsset (st : Store) (a : Asset) : Store :=
  { st with assets := upsertBy Asset.Id st.assets a }

def indexAssignment (st : Store) (a : Assignment) : Store :=
  { st with assignments := upsertBy Assignment.Id st.assignments a }

def indexUser (st : Store) (u : User) : Store :=
  { st with users := upsertBy User.Id st.users u }

/-- The `FindAsset`: `GetSource` of the asset with the given id. -/

def FindAsset (st : Store) (id : String) : Option Asset :=
  findBy Asset.Id st.assets id

/-- The `FindTask`: `GetSource` of the task with the given id. -/

def FindTask (st : Store) (id : String) : Option Task :=
  findBy Task.Id st.tasks id

/-- The `FindAssignment`: `GetSource` of the assignment with the given id. -/

def FindAssignment (st : Store) (id : String) : Option Assignment :=
  findBy Assignment.Id st.assignments id

/-- Byte-wise lexicographic comparison, the embedding of the ascending
store sort on a string field. -/

def charListLe : List Char → List Char → Bool
  | [], _ => true
  | _ :: _, [] => false
  | c :: cs, d :: ds =>
    if c.toNat < d.toNat then true
    else if d.toNat < c.toNat then false
    else charListLe cs ds

def strLe (a b : String) : Bool := charListLe a.data b.data

def insertTaskByName (t : Task) : List Task → List Task
  | [] => [t]
  | u :: us => if strLe t.Name u.Name then t :: u :: us else u :: insertTaskByName t us

/-- Ascending (stable) sort of tasks by `Name`. -/

def sortTasksByName : List Task → List Task
  | [] => []
  | t :: ts => insertTaskByName t (sortTasksByName ts)

/-- The embedding of `FindTasks` as called throughout the engine with
`Params{From: "0", Size: "10", SortBy: "Name", SortDir: "asc"}`:
the tasks of the project, sorted ascending by name, first page of ten. -/

def FindTasks (st : Store) (pid : String) : List Task :=
  (sortTasksByName (st.tasks.filter (fun t => t.Project == pid))).take 10

/-- Zero-fill any per-task counters a user record lacks (defensive fill
used by `FindUser` over the first task page). -/

def fillTaskCounts (page : List Task) (c : Counts) : Counts :=
  page.foldl (fun acc t => if countsHas acc t.Id then acc else countsSet acc t.Id 0) c

/-- The `FindUser` lookup for a non-empty id: `GetSource`, then zero-fill any
per-task counters the user record lacks (first task page only).  A
missing record yields `none` (Go returns a nil user). -/

def FindUser (st : Store) (pid : String) (id : String) : Option User :=
  match findBy User.Id st.users id with
  | none => none
  | some u => some { u with Counts := fillTaskCounts (FindTasks st pid) u.Counts }

/-- The `CreateUserFromMissingCookieValue`: build a fresh user carrying the
caller-supplied id and zeroed counts, and persist it.  (The per-task
count loop in the source is dead code, running only when `FindTasks`
fails, and the id-regeneration branch only fires for an empty id.) -/

def CreateUserFromMissingCookieValue (st : Store) (pid : String) (userId : String) :
    User × Store :=
  let user : User :=
    { Id := userId
      Name := ""
      Email := ""
      Project := pid
      ExternalId := ""
      Counts := [("Favorites", 0), ("Assignments", 0), ("VerifiedAssets", 0)]
      Favorites := []
      VerifiedAssets := [] }
  (user, indexUser st user)

/-- The find-or-lazily-create prologue shared by `CreateAssignment` and
`CreateAssetAssignment`. -/

def findOrCreateUser (st : Store) (pid : String) (userId : String) : User × Store :=
  match FindUser st pid userId with
  | some u => (u, st)
  | none => CreateUserFromMissingCookieValue st pid userId

/-- The five-key zero counts block every allocation path installs on an
asset whose counts map is still empty. -/

def initAssetCounts : Counts :=
  [("Favorites", 0), ("Assignments", 0), ("finished", 0), ("skipped", 0), ("unfinished", 0)]

/-- The counts block `UpdateAssignment` installs on an asset with empty
counts (it anticipates the unfinished decrement that follows). -/

def submitInitCounts : Counts :=
  [("Favorites", 0), ("Assignments", 1), ("finished", 0), ("skipped", 0), ("unfinished", 1)]

/-- The `SubmittedDataTracker`: one consensus partition (a distinct answer
value and how many finished assignments submitted it). -/

structure SubmittedDataTracker where
  Value : SubmittedData
  Count : Int
deriving DecidableEq

/-- The `collateSubmittedData`: fold one submitted answer into the tracker
list; every tracker holding a deep-equal value is bumped, and a fresh
tracker with count one is appended when none matched. -/

def collateSubmittedData (sdt : List SubmittedDataTracker) (item : SubmittedData) :
    List SubmittedDataTracker :=
  let bumped := sdt.map (fun t => if t.Value == item then { t with Count := t.Count + 1 } else t)
  if sdt.any (fun t => t.Value == item) then bumped
  else bumped ++ [{ Value := item, Count := 1 }]

/-- The `CompleteAsset`: store the verified submitted data for `task` on the
asset, then recompute `Verified` from the first task page of the
project (the source calls `FindTasks` with `Size: "10"`). -/

def CompleteAsset (st : Store) (pid : String) (assetId : String) (task : Task)
    (submittedData : SubmittedData) : Except String Asset × Store :=
  match FindAsset st assetId with
  | none => (.error "Failed finding an asset with that id.", st)
  | some asset0 =>
    let asset1 := { asset0 with
      SubmittedData := adSet asset0.SubmittedData task.Name (JTask.obj submittedData) }
    let page := FindTasks st pid
    let assetVerified := page.all (fun t => !(adIsNil asset1.SubmittedData t.Name))
    let asset2 := { asset1 with Verified := assetVerified }
    (.ok asset2, indexAsset st asset2)

/-- One step of the `CompleteTask` bucket aggregation (Elasticsearch
terms aggregation on `Asset.Id` over finished assignments). -/

def bumpBucket : List (String × Int) → String → List (String × Int)
  | [], i => [(i, 1)]
  | b :: bs, i => if b.1 == i then (b.1, b.2 + 1) :: bs else b :: bumpBucket bs i

def assetIdBuckets (l : List Assignment) : List (String × Int) :=
  l.foldl (fun acc a => bumpBucket acc a.Asset.Id) []

/-- Promote a batch of assignment records to `verified` state, persisting
each (the inner write loop of `CompleteTask`; a failed write is only logged). -/

def verifyAssignments (matching : List Assignment) (st : Store) : Store :=
  matching.foldl (fun s a => indexAssignment s { a with State := "verified" }) st

/-- The body of the `CompleteTask` tracker loop: when a tracker (consensus
partition) reaches `Matching`, complete the asset and promote every
fetched finished assignment for the work item; a `CompleteAsset` failure
is logged and skipped (`continue`). -/

def processTracker (pid : String) (task : Task) (bId : String)
    (matching : List Assignment) (acc : List Asset × Store)
    (tracker : SubmittedDataTracker) : List Asset × Store :=
  if task.CompletionCriteria.Matching ≤ tracker.Count then
    match CompleteAsset acc.2 pid bId task tracker.Value with
    | (.error _, st) => (acc.1, st)
    | (.ok asset, st) => (acc.1 ++ [asset], verifyAssignments matching st)
  else acc

/-- The body of the `CompleteTask` bucket loop: re-query the finished
assignments of one work item (the store returns at most the default page
of ten hits), group them by deep equality of submitted data, and run the
tracker loop. -/

def processBucket (pid : String) (taskName : String) (task : Task)
    (acc : List Asset × Store) (b : String × Int) : List Asset × Store :=
  if task.CompletionCriteria.Matching ≤ b.2 then
    let matching := (acc.2.assignments.filter (fun a =>
      a.Task == taskName && a.Asset.Id == b.1 && a.Project == pid &&
        a.State == "finished")).take 10
    let trackers := matching.foldl (fun sdt a => collateSubmittedData sdt a.SubmittedData) []
    trackers.foldl (processTracker pid task b.1 matching) acc
  else acc

/-- The `CompleteTask`: the consensus sweep for one task.  Aggregates
finished assignments by work item (buckets below `Total` are dropped by
`min_doc_count`), then processes each bucket whose count also reaches
`Matching`. -/

def CompleteTask (st : Store) (pid : String) (taskId : String) :
    Except String (List Asset) × Store :=
  let taskName := pid ++ "-" ++ taskId
  match FindTask st taskName with
  | none => (.error "task not found", st)
  | some task =>
    let finished := st.assignments.filter (fun a =>
      a.Task == taskName && a.Project == pid && a.State == "finished")
    let buckets := (assetIdBuckets finished).filter
      (fun b => task.CompletionCriteria.Total ≤ b.2)
    let res := buckets.foldl (processBucket pid taskName task) ([], st)
    (.ok res.1, res.2)

/-- Split a character list on the fixed id separator `"HIVE"`, scanning
left to right (Go `strings.Split(id, "HIVE")`). -/

def splitOnHIVE : List Char → List (List Char)
  | 'H' :: 'I' :: 'V' :: 'E' :: rest => [] :: splitOnHIVE rest
  | c :: rest =>
    match splitOnHIVE rest with
    | [] => [[c]]
    | g :: gs => (c :: g) :: gs
  | [] => [[]]

def hiveSplit (s : String) : List String :=
  (splitOnHIVE s.data).map (fun cs => String.mk cs)

/-- Field lookup inside one submitted answer. -/

def jGet : SubmittedData → String → Option JVal
  | [], _ => none
  | e :: es, k => if e.1 == k then some e.2 else jGet es k

/-- One `AssignmentCriteria` entry compiled to a store condition, as
`FindAssignmentAsset` builds it: an empty rule becomes the
missing-field filter on `SubmittedData.{task.Name}` (note: the source
interpolates `task.Name`, the task being assigned, not the own prerequisite
key of the entry), and a non-empty rule becomes one match condition per
field on `SubmittedData.{entryKey}.{field}`. -/

def ruleConjunct (task : Task) (entry : String × SubmittedData) (asset : Asset) : Bool :=
  if entry.2.isEmpty then
    adIsNil asset.SubmittedData task.Name
  else
    entry.2.all (fun f =>
      match adGet asset.SubmittedData entry.1 with
      | some (.obj fields) => jGet fields f.1 == some f.2
      | _ => false)

/-- The full filtered query `FindAssignmentAsset` executes: all criteria
conjuncts, the project scope, and the exclusion of already-assigned
asset ids (the `must_not` terms clause, vacuous when the list is empty). -/

def eligibleAsset (pid : String) (task : Task) (excludedIds : List String)
    (asset : Asset) : Bool :=
  task.AssignmentCriteria.SubmittedData.all (fun e => ruleConjunct task e asset)
    && asset.Project == pid
    && !(excludedIds.contains asset.Id)

/-- The first query of `FindAssignmentAsset`: the prior assignment
records of the worker for the (project, task, worker) triple, any state. -/

def priorAssignments (st : Store) (pid : String) (task : Task) (user : User) :
    List Assignment :=
  st.assignments.filter (fun a =>
    a.Task == task.Id && a.User == user.Id && a.Project == pid)

/-- The `FindAssignmentAsset` selector: gather the prior assignments of the
worker for the task (the query result size is the user counter
`Counts["Assignments"]`), extract asset ids from the third
`HIVE`-separated id component,
and pick uniformly at random among the eligible assets; `rand.Intn` is
embedded as the explicit `pick` argument. -/

def FindAssignmentAsset (st : Store) (pid : String) (task : Task) (user : User)
    (pick : Nat) : Except String Asset :=
  let priorHits := (priorAssignments st pid task user).take
      (countsGet user.Counts "Assignments").toNat
  let assetIds := priorHits.map (fun a => (hiveSplit a.Id).getD 2 "")
  let candidates := st.assets.filter (eligibleAsset pid task assetIds)
  match candidates with
  | [] => .error "No assets found"
  | c :: cs => .ok ((c :: cs).getD (pick % (c :: cs).length) c)

/-- The unfinished-assignment lookup of `CreateAssignment`: all records
matching the (project, task, worker) triple in `unfinished` state. -/

def unfinishedFor (st : Store) (pid : String) (taskId : String) (userId : String) :
    List Assignment :=
  st.assignments.filter (fun a =>
    a.Project == pid && a.Task == taskId && a.User == userId &&
      a.State == "unfinished")

/-- The `CreateAssignment`: allocation without an asset hint.  Requires the
task to be `available`; returns an existing unfinished assignment for
the (project, task, worker) triple when one exists, else selects an
eligible asset, bumps its counts, and persists asset plus assignment. -/

def CreateAssignment (st : Store) (pid : String) (taskId : String) (userId : String)
    (pick : Nat) : Except String Assignment × Store :=
  let fu := findOrCreateUser st pid userId
  let user := fu.1
  let st1 := fu.2
  match FindTask st1 taskId with
  | none => (.error "task not found", st1)
  | some task =>
    if task.CurrentState != "available" then (.error "Invalid task", st1)
    else
      match unfinishedFor st1 pid taskId userId with
      | a :: _ => (.ok a, st1)
      | [] =>
        match FindAssignmentAsset st1 pid task user pick with
        | .error e => (.error e, st1)
        | .ok asset0 =>
          let asset1 := { asset0 with
            Counts := if asset0.Counts.length = 0 then initAssetCounts else asset0.Counts }
          let asset2 := { asset1 with
            Counts := countsAdd (countsAdd asset1.Counts "Assignments" 1) "unfinished" 1 }
          let st2 := indexAsset st1 asset2
          let assignment : Assignment :=
            { Id := String.intercalate "HIVE" [pid, taskId, asset2.Id, user.Id]
              User := userId
              Project := pid
              Task := taskId
              Asset := asset2
              State := "unfinished"
              SubmittedData := [] }
          (.ok assignment, indexAssignment st2 assignment)

/-- The `CreateAssetAssignment`: allocation with an explicit asset hint (the
`AssignAssetHandler` path).  The source performs no task-state check on
this path; it bumps the asset counts and persists the new assignment
directly. -/

def CreateAssetAssignment (st : Store) (pid : String) (taskId : String)
    (userId : String) (assetId : String) : Except String Assignment × Store :=
  let fu := findOrCreateUser st pid userId
  let st1 := fu.2
  match FindAsset st1 assetId with
  | none => (.error "Failed finding an asset with that id.", st1)
  | some asset0 =>
    let asset1 := { asset0 with
      Counts := if asset0.Counts.length = 0 then initAssetCounts else asset0.Counts }
    let asset2 := { asset1 with
      Counts := countsAdd (countsAdd asset1.Counts "Assignments" 1) "unfinished" 1 }
    let st2 := indexAsset st1 asset2
    let assignment : Assignment :=
      { Id := String.intercalate "HIVE" [pid, taskId, assetId, userId]
        User := userId
        Project := pid
        Task := taskId
        Asset := asset2
        State := "unfinished"
        SubmittedData := [] }
    (.ok assignment, indexAssignment st2 assignment)

/-- The user-side tail of `UpdateAssignment`: persist the assignment,
and on a finished submission bump the worker total and per-task
counts.  (A missing user record makes the Go code dereference nil after
the asset write; embedded as an error result.  The per-task zero-fill
loop in the source is dead code, guarded by an inverted error check.) -/

def updateAssignmentUserStep (st : Store) (pid : String) (assignment : Assignment) :
    Except String Assignment × Store :=
  let st1 := indexAssignment st assignment
  if assignment.State == "finished" then
    match FindUser st1 pid assignment.User with
    | none => (.error "user not found", st1)
    | some user0 =>
      let user1 := { user0 with
        Counts := countsAdd (countsAdd user0.Counts "Assignments" 1) assignment.Task 1 }
      (.ok assignment, indexUser st1 user1)
  else (.ok assignment, st1)

/-- The `UpdateAssignment`: submission of an assignment (state `finished` or
`skipped` supplied by the caller).  Adjusts the counts of the referenced
work item (incrementing the submitted state, decrementing `unfinished`),
persists work item and assignment, then updates worker counts. -/

def UpdateAssignment (st : Store) (pid : String) (assignment0 : Assignment) :
    Except String Assignment × Store :=
  match FindAsset st assignment0.Asset.Id with
  | none => updateAssignmentUserStep st pid assignment0
  | some asset0 =>
    let asset1 := { asset0 with
      Counts := if asset0.Counts.length = 0 then submitInitCounts else asset0.Counts }
    let asset2 := { asset1 with
      Counts := countsAdd (countsAdd asset1.Counts assignment0.State 1) "unfinished" (-1) }
    let st1 := indexAsset st asset2
    updateAssignmentUserStep st1 pid { assignment0 with Asset := asset2 }

/-- The favorite-toggle response body. -/

structure favoriteResponse where
  AssetId : String
  Action : String
deriving DecidableEq

/-- The result of one favorite toggle: the response body plus the
updated asset and worker records to persist. -/

structure FavToggleResult where
  resp : favoriteResponse
  asset : Asset
  user : User
deriving DecidableEq

/-- The toggle core of `FavoriteHandler`: initialize empty asset counts,
flip the asset membership in the worker favorites, mirror the change
into the favorite counter of the asset (never below zero), and reset
the worker `Counts["Favorites"]` to the size of the favorites collection. -/

def favoriteToggle (asset0 : Asset) (user0 : User) : FavToggleResult :=
  let asset1 := { asset0 with
    Counts := if asset0.Counts.length = 0 then initAssetCounts else asset0.Counts }
  if user0.Favorites.any (fun e => e.1 == asset1.Id) then
    let favs := user0.Favorites.filter (fun e => !(e.1 == asset1.Id))
    let asset2 := { asset1 with
      Counts := if 0 < countsGet asset1.Counts "Favorites" then
        countsAdd asset1.Counts "Favorites" (-1) else asset1.Counts }
    { resp := { AssetId := asset1.Id, Action := "unfavorited" }
      asset := asset2
      user := { user0 with
        Favorites := favs
        Counts := countsSet user0.Counts "Favorites" (favs.length : Int) } }
  else
    let favs := user0.Favorites ++ [(asset1.Id, asset1)]
    { resp := { AssetId := asset1.Id, Action := "favorited" }
      asset := { asset1 with Counts := countsAdd asset1.Counts "Favorites" 1 }
      user := { user0 with
        Favorites := favs
        Counts := countsSet user0.Counts "Favorites" (favs.length : Int) } }

/-- The `FavoriteHandler` (its engine core, HTTP and cookie plumbing aside):
look up asset and worker, run the toggle, persist asset then worker. -/

def FavoriteHandler (st : Store) (pid : String) (assetId : String) (userId : String) :
    Except String favoriteResponse × Store :=
  match FindAsset st assetId with
  | none => (.error "asset not found", st)
  | some asset0 =>
    match FindUser st pid userId with
    | none => (.error "Favoriting assets requires a valid user.", st)
    | some user0 =>
      let r := favoriteToggle asset0 user0
      (.ok r.resp, indexUser (indexAsset st r.asset) r.user)

/-- The tracker bump pass of `collateSubmittedData`. -/

def bumpMatching (item : SubmittedData) (t : SubmittedDataTracker) : SubmittedDataTracker :=
  if t.Value == item then { t with Count := t.Count + 1 } else t

/-- Two distinct concrete worker answers. -/

def ceSdA : SubmittedData := [("category", .str "usable")]

def ceSdB : SubmittedData := [("category", .str "junk")]

/-- A freshly imported asset (empty counts, no submitted data). -/

def ceAsset1 : Asset :=
  { Id := "x1", Project := "p", Url := "http://e/1", Name := "one"
    SubmittedData := [], Favorited := false, Verified := false, Counts := [] }

/-- An available task with consensus thresholds Total 2, Matching 2. -/

def ceTask1 : Task :=
  { Id := "p-t", Project := "p", Name := "t", Description := ""
    CurrentState := "available"
    AssignmentCriteria := { SubmittedData := [] }
    CompletionCriteria := { Total := 2, Matching := 2 } }

def mkFinished (id uid : String) (sd : SubmittedData) : Assignment :=
  { Id := id, User := uid, Project := "p", Task := "p-t", Asset := ceAsset1
    State := "finished", SubmittedData := sd }

/-- Three finished assignments on one asset: two agree, one differs. -/

def ce1Store : Store :=
  { assets := [ceAsset1]
    assignments := [mkFinished "a1" "u1" ceSdA, mkFinished "a2" "u2" ceSdA,
      mkFinished "a3" "u3" ceSdB]
    tasks := [ceTask1], users := [] }

/-- A task named `tag` whose criteria hold an empty rule for the distinct
prerequisite task `categorize`. -/

def ce2Task : Task :=
  { Id := "p-tag", Project := "p", Name := "tag", Description := ""
    CurrentState := "available"
    AssignmentCriteria := { SubmittedData := [("categorize", [])] }
    CompletionCriteria := { Total := 2, Matching := 2 } }

/-- An asset that has already received a `categorize` answer. -/

def ce2Asset : Asset :=
  { Id := "y1", Project := "p", Url := "http://e/2", Name := "two"
    SubmittedData := [("categorize", .obj [("c", .str "x")])]
    Favorited := false, Verified := false, Counts := [] }

/-- A fresh worker with zeroed counts. -/

def ce2User : User :=
  { Id := "u", Name := "", Email := "", Project := "p", ExternalId := ""
    Counts := [("Favorites", 0), ("Assignments", 0), ("VerifiedAssets", 0)]
    Favorites := [], VerifiedAssets := [] }

def ce2Store : Store :=
  { assets := [ce2Asset], assignments := [], tasks := [ce2Task], users := [ce2User] }

/-- A prior skipped assignment of `x1` to worker `u` for task `p-t`. -/

def ce3Asg : Assignment :=
  { Id := "pHIVEp-tHIVEx1HIVEu", User := "u", Project := "p", Task := "p-t"
    Asset := ceAsset1, State := "skipped", SubmittedData := [] }

def ce3Store : Store :=
  { assets := [ceAsset1], assignments := [ce3Asg], tasks := [ceTask1], users := [ce2User] }

/-- Discriminate the two `Except` constructors. -/

def exceptIsOk : Except ε α → Bool
  | .ok _ => true
  | .error _ => false

def ce4Store : Store :=
  { assets := [ceAsset1], assignments := [], tasks := [ceTask1], users := [] }

/-- One single-letter-named task of project `q`. -/

def mkTask (nm : String) : Task :=
  { Id := "q-" ++ nm, Project := "q", Name := nm, Description := ""
    CurrentState := "available"
    AssignmentCriteria := { SubmittedData := [] }
    CompletionCriteria := { Total := 1, Matching := 1 } }

/-- Eleven tasks, one more than the page the verified check reads. -/

def ce6Tasks : List Task :=
  [mkTask "a", mkTask "b", mkTask "c", mkTask "d", mkTask "e", mkTask "f",
   mkTask "g", mkTask "h", mkTask "i", mkTask "j", mkTask "k"]

/-- An asset holding answers for tasks `b` through `j` and nothing for
`a` (about to be completed) or `k` (the eleventh task). -/

def ce6Asset : Asset :=
  { Id := "z1", Project := "q", Url := "http://e/3", Name := "z"
    SubmittedData := [("b", .obj [("v", .str "1")]), ("c", .obj [("v", .str "1")]),
      ("d", .obj [("v", .str "1")]), ("e", .obj [("v", .str "1")]),
      ("f", .obj [("v", .str "1")]), ("g", .obj [("v", .str "1")]),
      ("h", .obj [("v", .str "1")]), ("i", .obj [("v", .str "1")]),
      ("j", .obj [("v", .str "1")])]
    Favorited := false, Verified := false, Counts := [] }

def ce6Store : Store :=
  { assets := [ce6Asset], assignments := [], tasks := ce6Tasks, users := [] }

/-- A store whose only task is in `waiting` state. -/

def ce7Store : Store :=
  { assets := [ceAsset1], assignments := []
    tasks := [{ ceTask1 with Id := "p-w", Name := "w", CurrentState := "waiting" }]
    users := [] }

/-- Two qualifying work items under Total 1, Matching 1; the asset record
of the first (`xGone`) is missing from the store. -/

def ce8Store : Store :=
  { assets := [{ ceAsset1 with Id := "x2" }]
    assignments := [{ mkFinished "b1" "u1" ceSdA with
        Asset := { ceAsset1 with Id := "xGone" } },
      { mkFinished "b2" "u2" ceSdA with Asset := { ceAsset1 with Id := "x2" } }]
    tasks := [{ ceTask1 with CompletionCriteria := { Total := 1, Matching := 1 } }]
    users := [] }

/-- A second eligible asset for the C3 witness store. -/

def w3Asset : Asset := { ceAsset1 with Id := "x3" }

/-- A worker whose assignments counter covers the single prior record. -/

def w3User : User :=
  { ce2User with Counts := [("Favorites", 0), ("Assignments", 5), ("VerifiedAssets", 0)] }

def w3Store : Store :=
  { assets := [ceAsset1, w3Asset], assignments := [ce3Asg], tasks := [ceTask1]
    users := [w3User] }

/-- A one-task witness store for the amended C6 theorem. -/

def w6Asset : Asset :=
  { Id := "z1", Project := "q", Url := "http://e/4", Name := "z"
    SubmittedData := [], Favorited := false, Verified := false, Counts := [] }

def w6Store : Store :=
  { assets := [w6Asset], assignments := [], tasks := [mkTask "a"], users := [] }

def w6Done : Asset :=
  { w6Asset with
    SubmittedData := [("a", JTask.obj [("v", JVal.str "9")])]
    Verified := true }

/-- The assignment with this id is stored in `verified` state. -/

def verifiedAt (st : Store) (i : String) : Prop :=
  ∃ r, FindAssignment st i = some r ∧ r.State = "verified"

/-- The completed `x1` record for the C1 witness. -/

def w1Done : Asset :=
  { ceAsset1 with
    SubmittedData := [("t", JTask.obj ceSdA)]
    Verified := true }

/-- The ledger invariant on one counts map. -/

def CountsBalanced (c : Counts) : Prop :=
  countsGet c "Assignments"
    = countsGet c "finished" + countsGet c "skipped" + countsGet c "unfinished"

/-- A work item whose counts have been initialized satisfies the ledger
invariant (an empty counts map is the uninitialized state). -/

def AssetCountsInv (a : Asset) : Prop := ¬ a.Counts = [] → CountsBalanced a.Counts

def StoreCountsInv (st : Store) : Prop := ∀ a ∈ st.assets, AssetCountsInv a

instance (c : Counts) : Decidable (CountsBalanced c) := by
  unfold CountsBalanced
  infer_instance

instance (a : Asset) : Decidable (AssetCountsInv a) := by
  unfold AssetCountsInv
  infer_instance

instance (st : Store) : Decidable (StoreCountsInv st) := by
  unfold StoreCountsInv
  infer_instance

theorem countsGet_set_same (c : Counts) (k : String) (v : Int) :
    countsGet (countsSet c k v) k = v := by
  induction c with
  | nil => simp [countsSet, countsGet]
  | cons e es ih =>
    by_cases h : e.1 == k
    · simp [countsSet, countsGet, h]
    · simp [countsSet, countsGet, h, ih]

theorem countsGet_set_other (c : Counts) (k k' : String) (v : Int) (h : ¬ k' = k) :
    countsGet (countsSet c k v) k' = countsGet c k' := by
  induction c with
  | nil =>
    simp [countsSet, countsGet]
    intro hkk
    exact absurd hkk.symm h
  | cons e es ih =>
    by_cases he : e.1 == k
    · have hek : e.1 = k := by simpa using he
      have : ¬ (k == k') := by
        simp only [beq_iff_eq]
        exact fun hc => h hc.symm
      simp [countsSet, countsGet, he, this, hek]
    · simp [countsSet, countsGet, he, ih]

theorem countsGet_add_same (c : Counts) (k : String) (d : Int) :
    countsGet (countsAdd c k d) k = countsGet c k + d := by
  simp [countsAdd, countsGet_set_same]

theorem countsGet_add_other (c : Counts) (k k' : String) (d : Int) (h : ¬ k' = k) :
    countsGet (countsAdd c k d) k' = countsGet c k' := by
  simp [countsAdd, countsGet_set_other _ _ _ _ h]

theorem adGet_set_same (d : AssetData) (k : String) (v : JTask) :
    adGet (adSet d k v) k = some v := by
  induction d with
  | nil => simp [adSet, adGet]
  | cons e es ih =>
    by_cases h : e.1 == k
    · simp [adSet, adGet, h]
    · simp [adSet, adGet, h, ih]

theorem findBy_upsertBy_same (key : α → String) (l : List α) (a : α) :
    findBy key (upsertBy key l a) (key a) = some a := by
  induction l with
  | nil => simp [upsertBy, findBy]
  | cons b bs ih =>
    by_cases h : key b == key a
    · simp [upsertBy, findBy, h]
    · simp [upsertBy, findBy, h, ih]

theorem findBy_upsertBy_other (key : α → String) (l : List α) (a : α) (i : String)
    (hne : ¬ i = key a) :
    findBy key (upsertBy key l a) i = findBy key l i := by
  induction l with
  | nil =>
    simp [upsertBy, findBy]
    intro h
    exact absurd h.symm hne
  | cons b bs ih =>
    by_cases h : key b == key a
    · have hb : key b = key a := by simpa using h
      have hai : ¬ (key a == i) := by
        simp only [beq_iff_eq]
        exact fun hc => hne hc.symm
      have hbi : ¬ (key b == i) := by
        rw [hb]
        exact hai
      simp [upsertBy, findBy, h, hai, hbi]
    · by_cases hbi : key b == i
      · simp [upsertBy, findBy, h, hbi]
      · simp [upsertBy, findBy, h, hbi, ih]

theorem forall_upsertBy (key : α → String) (l : List α) (a : α) (P : α → Prop)
    (hl : ∀ b ∈ l, P b) (ha : P a) : ∀ b ∈ upsertBy key l a, P b := by
  induction l with
  | nil =>
    intro b hb
    simp [upsertBy] at hb
    exact hb ▸ ha
  | cons c cs ih =>
    intro b hb
    by_cases h : key c == key a
    · simp only [upsertBy, h, if_true] at hb
      rcases List.mem_cons.mp hb with h1 | h2
      · exact h1 ▸ ha
      · exact hl b (List.mem_cons_of_mem _ h2)
    · simp only [upsertBy, h, if_false] at hb
      rcases List.mem_cons.mp hb with h1 | h2
      · exact h1 ▸ hl c (List.mem_cons_self _ _)
      · exact ih (fun x hx => hl x (List.mem_cons_of_mem _ hx)) b h2

theorem bumpMatching_value (item : SubmittedData) (t : SubmittedDataTracker) :
    (bumpMatching item t).Value = t.Value := by
  by_cases h : t.Value == item <;> simp [bumpMatching, h]

theorem collateSubmittedData_eq_found (sdt : List SubmittedDataTracker)
    (item : SubmittedData) (h : sdt.any (fun t => t.Value == item) = true) :
    collateSubmittedData sdt item = sdt.map (bumpMatching item) := by
  simp [collateSubmittedData, bumpMatching, h]

theorem collateSubmittedData_eq_missing (sdt : List SubmittedDataTracker)
    (item : SubmittedData) (h : sdt.any (fun t => t.Value == item) = false) :
    collateSubmittedData sdt item
      = sdt.map (bumpMatching item) ++ [{ Value := item, Count := 1 }] := by
  simp [collateSubmittedData, bumpMatching, h]

theorem sum_map_bumpMatching (item : SubmittedData) (l : List SubmittedDataTracker) :
    ((l.map (bumpMatching item)).map SubmittedDataTracker.Count).sum
      = (l.map SubmittedDataTracker.Count).sum + l.countP (fun t => t.Value == item) := by
  induction l with
  | nil => simp
  | cons t ts ih =>
    by_cases h : t.Value == item
    · simp only [List.map_cons, List.sum_cons, ih, List.countP_cons, h, if_true,
        bumpMatching]
      push_cast
      ring
    · simp only [List.map_cons, List.sum_cons, ih, List.countP_cons, h, if_false,
        bumpMatching]
      push_cast
      ring

theorem countP_map_bumpMatching (item : SubmittedData) (l : List SubmittedDataTracker) :
    (l.map (bumpMatching item)).countP (fun t => t.Value == item)
      = l.countP (fun t => t.Value == item) := by
  induction l with
  | nil => simp
  | cons t ts ih =>
    have hv : (bumpMatching item t).Value = t.Value := bumpMatching_value item t
    simp only [List.map_cons, List.countP_cons, ih, hv]

theorem countP_one_of_pairwise_any (l : List SubmittedDataTracker)
    (item : SubmittedData)
    (hdist : l.Pairwise (fun a b => a.Value ≠ b.Value))
    (hany : l.any (fun t => t.Value == item) = true) :
    l.countP (fun t => t.Value == item) = 1 := by
  induction l with
  | nil => simp at hany
  | cons t ts ih =>
    rcases List.pairwise_cons.mp hdist with ⟨ht, hts⟩
    by_cases h : t.Value == item
    · have hv : t.Value = item := by simpa using h
      have : ts.countP (fun t => t.Value == item) = 0 := by
        rw [List.countP_eq_zero]
        intro b hb
        simp only [beq_iff_eq]
        intro hbv
        exact ht b hb (hv.trans hbv.symm)
      simp [List.countP_cons, h, this]
    · have hany2 : ts.any (fun t => t.Value == item) = true := by
        simp only [List.any_cons, h, Bool.false_or] at hany
        exact hany
      simp [List.countP_cons, h, ih hts hany2]

theorem map_bumpMatching_of_not_any (item : SubmittedData) (l : List SubmittedDataTracker)
    (hnone : l.any (fun t => t.Value == item) = false) :
    l.map (bumpMatching item) = l := by
  induction l with
  | nil => simp
  | cons t ts ih =>
    simp only [List.any_cons, Bool.or_eq_false_iff] at hnone
    simp [bumpMatching, hnone.1, ih hnone.2]

/-- C10: `collateSubmittedData` preserves pairwise structural distinctness
of tracker values, raises the total of all counts by exactly one, and
leaves exactly one tracker whose value is deep-equal to the folded item. -/
theorem collateSubmittedData_invariant (sdt : List SubmittedDataTracker)
    (item : SubmittedData)
    (hdist : sdt.Pairwise (fun a b => a.Value ≠ b.Value)) :
    (collateSubmittedData sdt item).Pairwise (fun a b => a.Value ≠ b.Value)
    ∧ ((collateSubmittedData sdt item).map SubmittedDataTracker.Count).sum
        = (sdt.map SubmittedDataTracker.Count).sum + 1
    ∧ (collateSubmittedData sdt item).countP (fun t => t.Value == item) = 1 := by
  have hpw : (sdt.map (bumpMatching item)).Pairwise (fun a b => a.Value ≠ b.Value) := by
    rw [List.pairwise_map]
    exact hdist.imp (fun {a b} h => by
      rw [bumpMatching_value, bumpMatching_value]
      exact h)
  by_cases hany : sdt.any (fun t => t.Value == item) = true
  · rw [collateSubmittedData_eq_found sdt item hany]
    refine ⟨hpw, ?_, ?_⟩
    · rw [sum_map_bumpMatching, countP_one_of_pairwise_any sdt item hdist hany]
      norm_num
    · rw [countP_map_bumpMatching]
      exact countP_one_of_pairwise_any sdt item hdist hany
  · have hany' : sdt.any (fun t => t.Value == item) = false := by
      simpa using hany
    have hid : sdt.map (bumpMatching item) = sdt := map_bumpMatching_of_not_any item sdt hany'
    have hcz : sdt.countP (fun t => t.Value == item) = 0 := by
      rw [List.countP_eq_zero]
      intro b hb
      have := List.any_eq_false.mp hany' b hb
      simpa using this
    rw [collateSubmittedData_eq_missing sdt item hany', hid]
    refine ⟨?_, ?_, ?_⟩
    · rw [List.pairwise_append]
      refine ⟨hdist, List.pairwise_singleton _ _, ?_⟩
      intro a ha b hb
      simp only [List.mem_singleton] at hb
      subst hb
      have := List.any_eq_false.mp hany' a ha
      simpa using this
    · simp
    · simp [List.countP_append, hcz, List.countP_cons]

/-- Closed witness for the C10 theorem at a concrete tracker list. -/
theorem collateSubmittedData_invariant_witness :
    ([{ Value := [("category", JVal.str "usable")], Count := 2 }] :
        List SubmittedDataTracker).Pairwise (fun a b => a.Value ≠ b.Value)
    ∧ ((collateSubmittedData
          [{ Value := [("category", JVal.str "usable")], Count := 2 }]
          [("category", JVal.str "junk")]).map SubmittedDataTracker.Count).sum
        = (([{ Value := [("category", JVal.str "usable")], Count := 2 }] :
            List SubmittedDataTracker).map SubmittedDataTracker.Count).sum + 1 := by
  have h := collateSubmittedData_invariant
    [{ Value := [("category", JVal.str "usable")], Count := 2 }]
    [("category", JVal.str "junk")] (by decide)
  exact ⟨by decide, h.2.1⟩

theorem any_filter_not_key (l : UserFavorites) (i : String) :
    (l.filter (fun e => !(e.1 == i))).any (fun e => e.1 == i) = false := by
  induction l with
  | nil => simp
  | cons e es ih =>
    by_cases h : e.1 == i
    · simp [h, ih]
    · simp [h, ih]

/-- C9: toggling the same asset twice restores the worker favorites
membership for that asset, the reported `Action` alternates between
`favorited` and `unfavorited`, and after every toggle the worker counter
`Counts["Favorites"]` equals the size of the favorites collection. -/
theorem FavoriteHandler_double_toggle (asset : Asset) (user : User) :
    ((favoriteToggle (favoriteToggle asset user).asset
        (favoriteToggle asset user).user).user.Favorites.any (fun e => e.1 == asset.Id))
      = (user.Favorites.any (fun e => e.1 == asset.Id))
    ∧ (((favoriteToggle asset user).resp.Action = "favorited"
        ∧ (favoriteToggle (favoriteToggle asset user).asset
            (favoriteToggle asset user).user).resp.Action = "unfavorited")
      ∨ ((favoriteToggle asset user).resp.Action = "unfavorited"
        ∧ (favoriteToggle (favoriteToggle asset user).asset
            (favoriteToggle asset user).user).resp.Action = "favorited"))
    ∧ countsGet (favoriteToggle asset user).user.Counts "Favorites"
        = ((favoriteToggle asset user).user.Favorites.length : Int)
    ∧ countsGet (favoriteToggle (favoriteToggle asset user).asset
          (favoriteToggle asset user).user).user.Counts "Favorites"
        = ((favoriteToggle (favoriteToggle asset user).asset
            (favoriteToggle asset user).user).user.Favorites.length : Int) := by
  by_cases hm : user.Favorites.any (fun e => e.1 == asset.Id) = true
  · have h2 : ((user.Favorites.filter (fun e => !(e.1 == asset.Id))).any
        (fun e => e.1 == asset.Id)) = false := any_filter_not_key _ _
    refine ⟨?_, ?_, ?_, ?_⟩
    · simp [favoriteToggle, hm, h2, List.any_append]
    · simp [favoriteToggle, hm, h2]
    · simp [favoriteToggle, hm, countsGet_set_same]
    · simp [favoriteToggle, hm, h2, countsGet_set_same]
  · have hm' : user.Favorites.any (fun e => e.1 == asset.Id) = false := by
      rcases Bool.eq_false_or_eq_true (user.Favorites.any (fun e => e.1 == asset.Id)) with
        h | h
      · exact absurd h hm
      · exact h
    have h2 : ((user.Favorites ++
        [(asset.Id, { asset with Counts := if asset.Counts.length = 0 then
          initAssetCounts else asset.Counts })]).any (fun e => e.1 == asset.Id)) = true := by
      simp [List.any_append]
    refine ⟨?_, ?_, ?_, ?_⟩
    · simp [favoriteToggle, hm', h2, any_filter_not_key]
    · simp [favoriteToggle, hm', h2]
    · simp [favoriteToggle, hm', countsGet_set_same]
    · simp [favoriteToggle, hm', h2, countsGet_set_same]

/-- C1 counterexample: with thresholds Total 2, Matching 2 and three
finished assignments on one work item (two agreeing answers, one
differing), the sweep promotes all three assignments to `verified`; the
differing assignment does not remain `finished` as the claim states. -/
theorem CompleteTask_promotes_nonwinning :
    ((CompleteTask ce1Store "p" "t").1.map (List.map Asset.Id)) = .ok ["x1"]
    ∧ (FindAssignment ce1Store "a3").map Assignment.SubmittedData = some ceSdB
    ∧ ceSdB ≠ ceSdA
    ∧ (FindAssignment (CompleteTask ce1Store "p" "t").2 "a3").map Assignment.State
        = some "verified" := by decide

/-- C2 counterexample: an empty rule keyed by prerequisite `categorize`
on a task named `tag` does not exclude an asset that already has
`categorize` data; the selector happily returns it. -/
theorem FindAssignmentAsset_empty_rule_counterexample :
    ce2Task.AssignmentCriteria.SubmittedData = [("categorize", [])]
    ∧ ce2Task.Name = "tag"
    ∧ adIsNil ce2Asset.SubmittedData "categorize" = false
    ∧ FindAssignmentAsset ce2Store "p" ce2Task ce2User 0 = .ok ce2Asset := by decide

/-- C3 counterexample: a worker with `Counts["Assignments"] = 0` (the
counter only grows on finished submissions) and one prior skipped
assignment of `x1` is handed `x1` again: the result size of the exclusion
query is the counter, so the prior record is never seen. -/
theorem FindAssignmentAsset_returns_assigned_counterexample :
    ce3Asg ∈ ce3Store.assignments
    ∧ ce3Asg.Project = "p" ∧ ce3Asg.Task = ceTask1.Id ∧ ce3Asg.User = ce2User.Id
    ∧ ce3Asg.Asset.Id = "x1"
    ∧ countsGet ce2User.Counts "Assignments" = 0
    ∧ FindAssignmentAsset ce3Store "p" ceTask1 ce2User 0 = .ok ceAsset1
    ∧ ceAsset1.Id = "x1" := by decide

/-- C6 counterexample: with eleven tasks in the project, completing task
`a` marks the asset `Verified = true` although the eleventh task `k`
still has no submitted entry on it — the verified check only reads the
first page of ten tasks. -/
theorem CompleteAsset_verified_despite_null_counterexample :
    (mkTask "k") ∈ ce6Store.tasks
    ∧ ((CompleteAsset ce6Store "q" "z1" (mkTask "a") [("v", JVal.str "9")]).1.map
        (fun a => adIsNil a.SubmittedData "k")) = .ok true
    ∧ ((CompleteAsset ce6Store "q" "z1" (mkTask "a") [("v", JVal.str "9")]).1.map
        Asset.Verified) = .ok true := by decide

/-- C7 counterexample: the asset-hint allocation path succeeds on a task
in `waiting` state and bumps the counts of the work item; it neither checks
`CurrentState` nor fails with `TaskUnavailable`. -/
theorem CreateAssetAssignment_ignores_state_counterexample :
    (FindTask ce7Store "p-w").map Task.CurrentState = some "waiting"
    ∧ exceptIsOk (CreateAssetAssignment ce7Store "p" "p-w" "u" "x1").1 = true
    ∧ ((FindAsset ce7Store "x1").map (fun a => countsGet a.Counts "Assignments"))
        = some 0
    ∧ ((FindAsset (CreateAssetAssignment ce7Store "p" "p-w" "u" "x1").2 "x1").map
        (fun a => countsGet a.Counts "Assignments")) = some 1 := by decide

/-- C8 counterexample: both work items qualify for the sweep, completing
the first (`xGone`) fails because its asset record is missing, yet the
sweep returns a plain `.ok` with only the second item and carries no
per-item error list at all; the assignment of the failed item is untouched. -/
theorem CompleteTask_error_not_reported_counterexample :
    FindAsset ce8Store "xGone" = none
    ∧ (assetIdBuckets (ce8Store.assignments.filter (fun a =>
        a.Task == "p-t" && a.Project == "p" && a.State == "finished")))
        = [("xGone", 1), ("x2", 1)]
    ∧ ((CompleteTask ce8Store "p" "t").1.map (List.map Asset.Id)) = .ok ["x2"]
    ∧ (FindAssignment (CompleteTask ce8Store "p" "t").2 "b1").map Assignment.State
        = some "finished" := by decide

theorem getD_mem_or_eq : ∀ (l : List α) (n : Nat) (d : α), l.getD n d ∈ l ∨ l.getD n d = d
  | [], _, d => .inr (by simp)
  | x :: _, 0, _ => .inl (by simp)
  | x :: xs, n + 1, d => by
    rcases getD_mem_or_eq xs n d with h | h
    · exact .inl (by
        simp only [List.getD_cons_succ]
        exact List.mem_cons_of_mem _ h)
    · exact .inr (by simpa [List.getD_cons_succ] using h)

/-- An asset returned by `FindAssignmentAsset` is one of the stored
assets and passes the compiled eligibility filter. -/
theorem FindAssignmentAsset_mem_eligible (st : Store) (pid : String) (task : Task)
    (user : User) (pick : Nat) (asset : Asset)
    (hok : FindAssignmentAsset st pid task user pick = .ok asset) :
    asset ∈ st.assets
    ∧ eligibleAsset pid task
        (((priorAssignments st pid task user).take
          (countsGet user.Counts "Assignments").toNat).map
          (fun a => (hiveSplit a.Id).getD 2 "")) asset = true := by
  simp only [FindAssignmentAsset] at hok
  split at hok
  · simp at hok
  · next c cs heq =>
    have hmem : asset ∈ c :: cs := by
      have := Except.ok.inj hok
      rcases getD_mem_or_eq (c :: cs) (pick % (c :: cs).length) c with h | h
      · rw [← this]
        exact h
      · rw [← this, h]
        exact List.mem_cons_self _ _
    rw [← heq] at hmem
    exact List.mem_filter.mp hmem

/-- C2 amended: whenever the task criteria contain an empty rule (for
any prerequisite key), every asset the selector returns has an
absent-or-null submitted entry for the name of the task being assigned
(`task.Name`) — that is the field the compiled predicate constrains. -/
theorem FindAssignmentAsset_empty_rule_amended (st : Store) (pid : String)
    (task : Task) (user : User) (pick : Nat) (asset : Asset) (entryKey : String)
    (hmem : (entryKey, ([] : SubmittedData)) ∈ task.AssignmentCriteria.SubmittedData)
    (hok : FindAssignmentAsset st pid task user pick = .ok asset) :
    adIsNil asset.SubmittedData task.Name = true := by
  have hel := (FindAssignmentAsset_mem_eligible st pid task user pick asset hok).2
  unfold eligibleAsset at hel
  rw [Bool.and_eq_true, Bool.and_eq_true] at hel
  have hall : task.AssignmentCriteria.SubmittedData.all
      (fun e => ruleConjunct task e asset) = true := hel.1.1
  have hrule : ruleConjunct task (entryKey, ([] : SubmittedData)) asset = true :=
    List.all_eq_true.mp hall _ hmem
  simpa [ruleConjunct] using hrule

/-- Closed witness for the amended C2 theorem. -/
theorem FindAssignmentAsset_empty_rule_amended_witness :
    adIsNil ce2Asset.SubmittedData "tag" = true :=
  FindAssignmentAsset_empty_rule_amended ce2Store "p" ce2Task ce2User 0 ce2Asset
    "categorize" (by decide) (by decide)

/-- C3 amended: the exclusion of already-assigned assets only covers the
first `Counts["Assignments"]`-many prior records.  When the worker
counter bounds the number of prior records for the triple (and their ids
carry the canonical four `HIVE`-joined components), the selector never
returns an asset from any prior assignment, whatever its state. -/
theorem FindAssignmentAsset_excludes_prior_amended (st : Store) (pid : String)
    (task : Task) (user : User) (pick : Nat) (asset : Asset)
    (hsize : (priorAssignments st pid task user).length
      ≤ (countsGet user.Counts "Assignments").toNat)
    (hids : ∀ r ∈ priorAssignments st pid task user,
      (hiveSplit r.Id).getD 2 "" = r.Asset.Id)
    (hok : FindAssignmentAsset st pid task user pick = .ok asset) :
    ∀ r ∈ priorAssignments st pid task user, ¬ asset.Id = r.Asset.Id := by
  have hel := (FindAssignmentAsset_mem_eligible st pid task user pick asset hok).2
  rw [List.take_of_length_le hsize, List.map_congr_left hids] at hel
  unfold eligibleAsset at hel
  rw [Bool.and_eq_true] at hel
  have hnc := hel.2
  simp only [Bool.not_eq_true'] at hnc
  intro r hr heq
  have hmem : asset.Id ∈ (priorAssignments st pid task user).map (fun r => r.Asset.Id) :=
    List.mem_map.mpr ⟨r, hr, heq.symm⟩
  simp only [List.contains_eq_any_beq] at hnc
  rw [List.any_eq_false] at hnc
  exact hnc asset.Id hmem (by simp)

/-- Closed witness for the amended C3 theorem: the selector skips the
previously skipped asset `x1` and returns `x3`. -/
theorem FindAssignmentAsset_excludes_prior_amended_witness :
    FindAssignmentAsset w3Store "p" ceTask1 w3User 0 = .ok w3Asset
    ∧ ¬ w3Asset.Id = ce3Asg.Asset.Id :=
  ⟨by decide,
    FindAssignmentAsset_excludes_prior_amended w3Store "p" ceTask1 w3User 0 w3Asset
      (by decide) (by decide) (by decide) ce3Asg (by decide)⟩

/-- C6 amended: consensus completion sets `Verified` to true exactly
when every task of the first page of ten (the tasks of the project sorted
ascending by name) has a non-null submitted entry after the winning
value for the completed task is recorded. -/
theorem CompleteAsset_verified_amended (st : Store) (pid assetId : String)
    (task : Task) (sd : SubmittedData) (asset : Asset) (st' : Store)
    (hok : CompleteAsset st pid assetId task sd = (.ok asset, st')) :
    (asset.Verified = true
      ↔ ∀ t ∈ FindTasks st pid, adIsNil asset.SubmittedData t.Name = false)
    ∧ adGet asset.SubmittedData task.Name = some (.obj sd) := by
  simp only [CompleteAsset] at hok
  split at hok
  · simp at hok
  · next asset0 heq =>
    rw [Prod.mk.injEq] at hok
    have hA := Except.ok.inj hok.1
    constructor
    · rw [← hA]
      constructor
      · intro hv t ht
        have := List.all_eq_true.mp hv t ht
        simpa using this
      · intro hall
        apply List.all_eq_true.mpr
        intro t ht
        simpa using hall t ht
    · rw [← hA]
      exact adGet_set_same asset0.SubmittedData task.Name (JTask.obj sd)

/-- Closed witness for the amended C6 theorem. -/
theorem CompleteAsset_verified_amended_witness :
    (w6Done.Verified = true
      ↔ ∀ t ∈ FindTasks w6Store "q", adIsNil w6Done.SubmittedData t.Name = false)
    ∧ adGet w6Done.SubmittedData "a" = some (.obj [("v", JVal.str "9")]) :=
  CompleteAsset_verified_amended w6Store "q" "z1" (mkTask "a") [("v", JVal.str "9")]
    w6Done (indexAsset w6Store w6Done) (by decide)

/-- The lazy-user prologue only ever touches the user records. -/
theorem findOrCreateUser_store_eq (st : Store) (pid userId : String) :
    (findOrCreateUser st pid userId).2.assets = st.assets
    ∧ (findOrCreateUser st pid userId).2.assignments = st.assignments
    ∧ (findOrCreateUser st pid userId).2.tasks = st.tasks := by
  unfold findOrCreateUser
  split
  · exact ⟨rfl, rfl, rfl⟩
  · exact ⟨rfl, rfl, rfl⟩

/-- C7 amended: allocation without an asset hint checks the task state:
a task that is not `available` makes `CreateAssignment` fail with the
`Invalid task` error, and neither the assignments nor the work items
(hence their counts) are touched.  (The asset-hint path performs no such
check — see the counterexample.) -/
theorem CreateAssignment_unavailable_amended (st : Store) (pid taskId userId : String)
    (pick : Nat) (task : Task)
    (hfind : FindTask st taskId = some task)
    (hstate : ¬ task.CurrentState = "available") :
    (CreateAssignment st pid taskId userId pick).1 = .error "Invalid task"
    ∧ ((CreateAssignment st pid taskId userId pick).2).assignments = st.assignments
    ∧ ((CreateAssignment st pid taskId userId pick).2).assets = st.assets := by
  obtain ⟨hassets, hassign, htasks⟩ := findOrCreateUser_store_eq st pid userId
  have hft : FindTask (findOrCreateUser st pid userId).2 taskId = some task := by
    unfold FindTask at hfind ⊢
    rw [htasks]
    exact hfind
  have hbne : (task.CurrentState != "available") = true := by
    simpa [bne_iff_ne] using hstate
  simp only [CreateAssignment, hft, hbne, if_true]
  refine ⟨?_, hassign, hassets⟩
  trivial

/-- Closed witness for the amended C7 theorem. -/
theorem CreateAssignment_unavailable_amended_witness :
    (CreateAssignment ce7Store "p" "p-w" "u" 0).1 = .error "Invalid task"
    ∧ ((CreateAssignment ce7Store "p" "p-w" "u" 0).2).assignments = ce7Store.assignments
    ∧ ((CreateAssignment ce7Store "p" "p-w" "u" 0).2).assets = ce7Store.assets :=
  CreateAssignment_unavailable_amended ce7Store "p" "p-w" "u" 0
    { ceTask1 with Id := "p-w", Name := "w", CurrentState := "waiting" }
    (by decide) (by decide)

/-- C8 amended: the sweep never surfaces per-item errors — whenever the
task exists the error slot of the sweep is `.ok` — and a failed
`CompleteAsset` for one work item leaves the accumulator untouched, so
the fold continues with the remaining trackers and buckets unharmed. -/
theorem CompleteTask_failure_semantics_amended (st : Store) (pid taskId : String)
    (task : Task) (hfind : FindTask st (pid ++ "-" ++ taskId) = some task)
    (bId : String) (matching : List Assignment) (acc : List Asset × Store)
    (tracker : SubmittedDataTracker) (e : String)
    (herr : CompleteAsset acc.2 pid bId task tracker.Value = (.error e, acc.2)) :
    (∃ assets, (CompleteTask st pid taskId).1 = .ok assets)
    ∧ processTracker pid task bId matching acc tracker = acc := by
  constructor
  · simp only [CompleteTask, hfind]
    exact ⟨_, rfl⟩
  · unfold processTracker
    by_cases hw : task.CompletionCriteria.Matching ≤ tracker.Count
    · rw [if_pos hw, herr]
    · rw [if_neg hw]

/-- Closed witness for the amended C8 theorem, at the store whose first
qualifying work item has no asset record. -/
theorem CompleteTask_failure_semantics_amended_witness :
    (∃ assets, (CompleteTask ce8Store "p" "t").1 = .ok assets)
    ∧ processTracker "p"
        { ceTask1 with CompletionCriteria := { Total := 1, Matching := 1 } }
        "xGone" [] ([], ce8Store) { Value := ceSdA, Count := 1 } = ([], ce8Store) :=
  CompleteTask_failure_semantics_amended ce8Store "p" "t"
    { ceTask1 with CompletionCriteria := { Total := 1, Matching := 1 } } (by decide)
    "xGone" [] ([], ce8Store) { Value := ceSdA, Count := 1 }
    "Failed finding an asset with that id." (by decide)

theorem verifyAssignments_cons (a : Assignment) (l : List Assignment) (st : Store) :
    verifyAssignments (a :: l) st
      = verifyAssignments l (indexAssignment st { a with State := "verified" }) := rfl

theorem verifyAssignments_assets (l : List Assignment) (st : Store) :
    (verifyAssignments l st).assets = st.assets := by
  induction l generalizing st with
  | nil => rfl
  | cons a as ih =>
    rw [verifyAssignments_cons, ih]
    rfl

theorem verifiedAt_index (st : Store) (a : Assignment) :
    verifiedAt (indexAssignment st { a with State := "verified" }) a.Id := by
  refine ⟨{ a with State := "verified" }, ?_, rfl⟩
  unfold FindAssignment indexAssignment
  exact findBy_upsertBy_same Assignment.Id st.assignments { a with State := "verified" }

theorem verifiedAt_index_pres (st : Store) (b : Assignment) (i : String)
    (h : verifiedAt st i) :
    verifiedAt (indexAssignment st { b with State := "verified" }) i := by
  by_cases hib : i = b.Id
  · subst hib
    exact verifiedAt_index st b
  · obtain ⟨r, hr, hs⟩ := h
    refine ⟨r, ?_, hs⟩
    unfold FindAssignment at hr ⊢
    show findBy Assignment.Id
      (upsertBy Assignment.Id st.assignments { b with State := "verified" }) i = some r
    rw [findBy_upsertBy_other Assignment.Id st.assignments
      { b with State := "verified" } i hib]
    exact hr

theorem verifyAssignments_pres (l : List Assignment) (st : Store) (i : String)
    (h : verifiedAt st i) : verifiedAt (verifyAssignments l st) i := by
  induction l generalizing st with
  | nil => exact h
  | cons a as ih =>
    rw [verifyAssignments_cons]
    exact ih _ (verifiedAt_index_pres st a i h)

theorem verifyAssignments_mem (l : List Assignment) (st : Store) (a : Assignment)
    (ha : a ∈ l) : verifiedAt (verifyAssignments l st) a.Id := by
  induction l generalizing st with
  | nil => simp at ha
  | cons b bs ih =>
    rw [verifyAssignments_cons]
    rcases List.mem_cons.mp ha with h1 | h2
    · subst h1
      exact verifyAssignments_pres bs _ a.Id (verifiedAt_index st a)
    · exact ih _ h2

/-- C1 amended: when a consensus partition reaches `Matching` and the
work item completes, the tracker step of the sweep records the winning value
on the work item and promotes EVERY fetched finished assignment of that
work item to `verified` — the whole fetched batch, not only the winning
partition. -/
theorem CompleteTask_winning_partition_amended (pid : String) (task : Task)
    (bId : String) (matching : List Assignment) (acc : List Asset × Store)
    (tracker : SubmittedDataTracker)
    (hwin : task.CompletionCriteria.Matching ≤ tracker.Count)
    (asset : Asset) (st : Store)
    (hok : CompleteAsset acc.2 pid bId task tracker.Value = (.ok asset, st)) :
    processTracker pid task bId matching acc tracker
      = (acc.1 ++ [asset], verifyAssignments matching st)
    ∧ adGet asset.SubmittedData task.Name = some (.obj tracker.Value)
    ∧ ∀ a ∈ matching, verifiedAt (verifyAssignments matching st) a.Id := by
  refine ⟨?_, ?_, fun a ha => verifyAssignments_mem matching st a ha⟩
  · unfold processTracker
    rw [if_pos hwin, hok]
  · simp only [CompleteAsset] at hok
    split at hok
    · simp at hok
    · next asset0 heq =>
      rw [Prod.mk.injEq] at hok
      have hA := Except.ok.inj hok.1
      rw [← hA]
      exact adGet_set_same asset0.SubmittedData task.Name (JTask.obj tracker.Value)

/-- Closed witness for the amended C1 theorem: the winning tracker of
the three-assignment fixture promotes the whole fetched batch. -/
theorem CompleteTask_winning_partition_amended_witness :
    processTracker "p" ceTask1 "x1" ce1Store.assignments ([], ce1Store)
        { Value := ceSdA, Count := 2 }
      = ([w1Done], verifyAssignments ce1Store.assignments (indexAsset ce1Store w1Done))
    ∧ adGet w1Done.SubmittedData "t" = some (.obj ceSdA) :=
  have h := CompleteTask_winning_partition_amended "p" ceTask1 "x1" ce1Store.assignments
    ([], ce1Store) { Value := ceSdA, Count := 2 } (by decide) w1Done
    (indexAsset ce1Store w1Done) (by decide)
  ⟨h.1, h.2.1⟩

theorem unfinishedFor_congr (st1 st2 : Store) (pid taskId userId : String)
    (h : st1.assignments = st2.assignments) :
    unfinishedFor st1 pid taskId userId = unfinishedFor st2 pid taskId userId := by
  unfold unfinishedFor
  rw [h]

theorem filter_upsertBy_head (key : α → String) (p : α → Bool) (l : List α) (x : α)
    (hl : ∀ b ∈ l, p b = false) (hx : p x = true) :
    ∃ tl, (upsertBy key l x).filter p = x :: tl := by
  induction l with
  | nil => exact ⟨[], by simp [upsertBy, hx]⟩
  | cons b bs ih =>
    by_cases h : key b == key x
    · refine ⟨bs.filter p, ?_⟩
      simp only [upsertBy, h, if_true]
      simp [List.filter_cons, hx]
    · obtain ⟨tl, htl⟩ := ih (fun c hc => hl c (List.mem_cons_of_mem _ hc))
      refine ⟨tl, ?_⟩
      simp only [upsertBy, h, if_false]
      have hb := hl b (List.mem_cons_self _ _)
      simp [List.filter_cons, hb, htl]

/-- After the lazy-user prologue the worker record exists in the store. -/
theorem findOrCreateUser_finds (st : Store) (pid userId : String) :
    ∃ u, findBy User.Id (findOrCreateUser st pid userId).2.users userId = some u := by
  unfold findOrCreateUser
  split
  · next u hu =>
    unfold FindUser at hu
    split at hu
    · simp at hu
    · next u0 hu0 => exact ⟨u0, hu0⟩
  · exact ⟨_, findBy_upsertBy_same User.Id st.users _⟩

/-- Anatomy of a successful allocation: afterwards the worker record
exists, the task is still found and `available`, and the returned
assignment heads the unfinished-assignment query for the triple. -/
theorem CreateAssignment_ok_anatomy (st : Store) (pid taskId userId : String)
    (pick : Nat) (a : Assignment) (st' : Store)
    (h : CreateAssignment st pid taskId userId pick = (.ok a, st')) :
    (∃ u, findBy User.Id st'.users userId = some u)
    ∧ (∃ task, FindTask st' taskId = some task ∧ task.CurrentState = "available")
    ∧ (∃ tl, unfinishedFor st' pid taskId userId = a :: tl) := by
  simp only [CreateAssignment] at h
  split at h
  · simp at h
  · next task hft =>
    split at h
    · simp at h
    · next hbne =>
      have hav : task.CurrentState = "available" := by
        simpa [bne_iff_ne] using hbne
      split at h
      · next a0 rest hunf =>
        rw [Prod.mk.injEq] at h
        have ha := Except.ok.inj h.1
        have hst := h.2
        subst hst
        subst ha
        exact ⟨findOrCreateUser_finds st pid userId, ⟨task, hft, hav⟩, ⟨rest, hunf⟩⟩
      · next hnil =>
        split at h
        · simp at h
        · next asset0 hfaa =>
          rw [Prod.mk.injEq] at h
          have ha := Except.ok.inj h.1
          have hst := h.2
          subst hst
          subst ha
          refine ⟨findOrCreateUser_finds st pid userId, ⟨task, hft, hav⟩, ?_⟩
          have hall : ∀ b ∈ (findOrCreateUser st pid userId).2.assignments,
              (b.Project == pid && b.Task == taskId && b.User == userId &&
                b.State == "unfinished") = false := by
            intro b hb
            have := List.filter_eq_nil_iff.mp hnil b hb
            rcases Bool.eq_false_or_eq_true (b.Project == pid && b.Task == taskId &&
              b.User == userId && b.State == "unfinished") with ht | hf
            · exact absurd ht this
            · exact hf
          exact filter_upsertBy_head Assignment.Id _ _ _ hall (by simp)

/-- C4: if an unfinished assignment already exists for the (project,
task, worker) triple of an available task, allocation returns the head
of that query unchanged, touching neither assignments nor work items
(only the lazily created worker record may be added); consequently a
second allocation right after a successful one returns the very same
assignment and leaves the store untouched. -/
theorem CreateAssignment_idempotent (st : Store) (pid taskId userId : String)
    (pick pick2 : Nat) :
    (∀ task a rest, FindTask st taskId = some task →
      task.CurrentState = "available" →
      unfinishedFor st pid taskId userId = a :: rest →
      CreateAssignment st pid taskId userId pick
          = (.ok a, (findOrCreateUser st pid userId).2)
        ∧ ((findOrCreateUser st pid userId).2).assignments = st.assignments
        ∧ ((findOrCreateUser st pid userId).2).assets = st.assets)
    ∧ (∀ a st', CreateAssignment st pid taskId userId pick = (.ok a, st') →
      CreateAssignment st' pid taskId userId pick2 = (.ok a, st')) := by
  constructor
  · intro task a rest hft hav hunf
    obtain ⟨hassets, hassign, htasks⟩ := findOrCreateUser_store_eq st pid userId
    have hft1 : FindTask (findOrCreateUser st pid userId).2 taskId = some task := by
      unfold FindTask at hft ⊢
      rw [htasks]
      exact hft
    have hbne : (task.CurrentState != "available") = false := by
      simp [hav]
    have hunf1 : unfinishedFor (findOrCreateUser st pid userId).2 pid taskId userId
        = a :: rest := by
      rw [unfinishedFor_congr _ st pid taskId userId hassign]
      exact hunf
    refine ⟨?_, hassign, hassets⟩
    simp only [CreateAssignment, hft1, hbne, Bool.false_eq_true, if_false, hunf1]
  · intro a st' h
    obtain ⟨⟨u, hu⟩, ⟨task, hft, hav⟩, ⟨tl, hunf⟩⟩ :=
      CreateAssignment_ok_anatomy st pid taskId userId pick a st' h
    have hfu : findOrCreateUser st' pid userId
        = ({ u with Counts := fillTaskCounts (FindTasks st' pid) u.Counts }, st') := by
      unfold findOrCreateUser FindUser
      rw [hu]
    have hbne : (task.CurrentState != "available") = false := by
      simp [hav]
    simp only [CreateAssignment, hfu, hft, hbne, Bool.false_eq_true, if_false, hunf]

/-- Closed witness for the C4 theorem: allocate once on the fixture
store, then observe the second allocation return the same pair. -/
theorem CreateAssignment_idempotent_witness :
    CreateAssignment (CreateAssignment ce4Store "p" "p-t" "u" 0).2 "p" "p-t" "u" 7
      = ((CreateAssignment ce4Store "p" "p-t" "u" 0).1,
        (CreateAssignment ce4Store "p" "p-t" "u" 0).2) := by
  have h2 := (CreateAssignment_idempotent ce4Store "p" "p-t" "u" 0 7).2
  have hok : exceptIsOk (CreateAssignment ce4Store "p" "p-t" "u" 0).1 = true := by decide
  cases hE : (CreateAssignment ce4Store "p" "p-t" "u" 0).1 with
  | error e =>
    rw [hE] at hok
    simp [exceptIsOk] at hok
  | ok a =>
    have hpair : CreateAssignment ce4Store "p" "p-t" "u" 0
        = (.ok a, (CreateAssignment ce4Store "p" "p-t" "u" 0).2) := by
      rw [← hE]
    rw [h2 a (CreateAssignment ce4Store "p" "p-t" "u" 0).2 hpair]

theorem CountsBalanced_alloc (c : Counts) (h : CountsBalanced c) :
    CountsBalanced (countsAdd (countsAdd c "Assignments" 1) "unfinished" 1) := by
  unfold CountsBalanced at h ⊢
  have e1 := countsGet_add_other (countsAdd c "Assignments" 1) "unfinished" "Assignments"
    1 (by decide)
  have e2 := countsGet_add_other (countsAdd c "Assignments" 1) "unfinished" "finished"
    1 (by decide)
  have e3 := countsGet_add_other (countsAdd c "Assignments" 1) "unfinished" "skipped"
    1 (by decide)
  have e4 := countsGet_add_same (countsAdd c "Assignments" 1) "unfinished" 1
  have f1 := countsGet_add_same c "Assignments" 1
  have f2 := countsGet_add_other c "Assignments" "finished" 1 (by decide)
  have f3 := countsGet_add_other c "Assignments" "skipped" 1 (by decide)
  have f4 := countsGet_add_other c "Assignments" "unfinished" 1 (by decide)
  rw [e1, f1, e2, f2, e3, f3, e4, f4]
  omega

theorem CountsBalanced_submit (c : Counts) (stt : String)
    (hstt : stt = "finished" ∨ stt = "skipped") (h : CountsBalanced c) :
    CountsBalanced (countsAdd (countsAdd c stt 1) "unfinished" (-1)) := by
  unfold CountsBalanced at h ⊢
  rcases hstt with h1 | h1 <;> subst h1
  · have e1 := countsGet_add_other (countsAdd c "finished" 1) "unfinished" "Assignments"
      (-1) (by decide)
    have e2 := countsGet_add_other (countsAdd c "finished" 1) "unfinished" "finished"
      (-1) (by decide)
    have e3 := countsGet_add_other (countsAdd c "finished" 1) "unfinished" "skipped"
      (-1) (by decide)
    have e4 := countsGet_add_same (countsAdd c "finished" 1) "unfinished" (-1)
    have f1 := countsGet_add_other c "finished" "Assignments" 1 (by decide)
    have f2 := countsGet_add_same c "finished" 1
    have f3 := countsGet_add_other c "finished" "skipped" 1 (by decide)
    have f4 := countsGet_add_other c "finished" "unfinished" 1 (by decide)
    rw [e1, f1, e2, f2, e3, f3, e4, f4]
    omega
  · have e1 := countsGet_add_other (countsAdd c "skipped" 1) "unfinished" "Assignments"
      (-1) (by decide)
    have e2 := countsGet_add_other (countsAdd c "skipped" 1) "unfinished" "finished"
      (-1) (by decide)
    have e3 := countsGet_add_other (countsAdd c "skipped" 1) "unfinished" "skipped"
      (-1) (by decide)
    have e4 := countsGet_add_same (countsAdd c "skipped" 1) "unfinished" (-1)
    have f1 := countsGet_add_other c "skipped" "Assignments" 1 (by decide)
    have f2 := countsGet_add_other c "skipped" "finished" 1 (by decide)
    have f3 := countsGet_add_same c "skipped" 1
    have f4 := countsGet_add_other c "skipped" "unfinished" 1 (by decide)
    rw [e1, f1, e2, f2, e3, f3, e4, f4]
    omega

theorem CountsBalanced_init_branch (a : Asset) (h : AssetCountsInv a) :
    CountsBalanced (if a.Counts.length = 0 then initAssetCounts else a.Counts) := by
  by_cases hlen : a.Counts.length = 0
  · rw [if_pos hlen]
    unfold CountsBalanced
    decide
  · rw [if_neg hlen]
    exact h (fun he => hlen (by rw [he]; rfl))

theorem CountsBalanced_submit_branch (a : Asset) (h : AssetCountsInv a) :
    CountsBalanced (if a.Counts.length = 0 then submitInitCounts else a.Counts) := by
  by_cases hlen : a.Counts.length = 0
  · rw [if_pos hlen]
    unfold CountsBalanced
    decide
  · rw [if_neg hlen]
    exact h (fun he => hlen (by rw [he]; rfl))

theorem findBy_mem (key : α → String) (l : List α) (i : String) (b : α)
    (h : findBy key l i = some b) : b ∈ l := by
  induction l with
  | nil => simp [findBy] at h
  | cons x xs ih =>
    by_cases hx : key x == i
    · simp only [findBy, hx, if_true, Option.some.injEq] at h
      rw [← h]
      exact List.mem_cons_self _ _
    · simp only [findBy, hx, if_false] at h
      exact List.mem_cons_of_mem _ (ih h)

theorem updateAssignmentUserStep_assets (st : Store) (pid : String) (a : Assignment) :
    ((updateAssignmentUserStep st pid a).2).assets = st.assets := by
  simp only [updateAssignmentUserStep]
  split
  · split
    · rfl
    · rfl
  · rfl

/-- C5: every Assignment Lifecycle operation — allocation without an
asset hint, allocation with an asset hint, and submission of a finished
or skipped assignment — preserves the ledger invariant
`Counts["Assignments"] = Counts["finished"] + Counts["skipped"] +
Counts["unfinished"]` on every initialized work item. -/
theorem lifecycle_counts_invariant (st : Store) (pid taskId userId assetId : String)
    (pick : Nat) (asg : Assignment)
    (hinv : StoreCountsInv st)
    (hstate : asg.State = "finished" ∨ asg.State = "skipped") :
    StoreCountsInv (CreateAssignment st pid taskId userId pick).2
    ∧ StoreCountsInv (CreateAssetAssignment st pid taskId userId assetId).2
    ∧ StoreCountsInv (UpdateAssignment st pid asg).2 := by
  obtain ⟨hassets, hassign, htasks⟩ := findOrCreateUser_store_eq st pid userId
  have hinv1 : StoreCountsInv (findOrCreateUser st pid userId).2 := by
    unfold StoreCountsInv at hinv ⊢
    rw [hassets]
    exact hinv
  refine ⟨?_, ?_, ?_⟩
  · simp only [CreateAssignment]
    split
    · exact hinv1
    · split
      · exact hinv1
      · split
        · exact hinv1
        · split
          · exact hinv1
          · next asset0 hfaa =>
            have hmem0 := (FindAssignmentAsset_mem_eligible _ _ _ _ _ _ hfaa).1
            have hbal : CountsBalanced (countsAdd (countsAdd
                (if asset0.Counts.length = 0 then initAssetCounts else asset0.Counts)
                "Assignments" 1) "unfinished" 1) :=
              CountsBalanced_alloc _
                (CountsBalanced_init_branch asset0 (hinv1 asset0 hmem0))
            intro b hb
            exact forall_upsertBy Asset.Id _ _ AssetCountsInv hinv1 (fun _ => hbal) b hb
  · simp only [CreateAssetAssignment]
    split
    · exact hinv1
    · next asset0 hfa =>
      have hmem0 : asset0 ∈ (findOrCreateUser st pid userId).2.assets :=
        findBy_mem Asset.Id _ _ _ hfa
      have hbal : CountsBalanced (countsAdd (countsAdd
          (if asset0.Counts.length = 0 then initAssetCounts else asset0.Counts)
          "Assignments" 1) "unfinished" 1) :=
        CountsBalanced_alloc _
          (CountsBalanced_init_branch asset0 (hinv1 asset0 hmem0))
      intro b hb
      exact forall_upsertBy Asset.Id _ _ AssetCountsInv hinv1 (fun _ => hbal) b hb
  · simp only [UpdateAssignment]
    split
    · unfold StoreCountsInv
      rw [updateAssignmentUserStep_assets]
      exact hinv
    · next asset0 hfa =>
      have hmem0 : asset0 ∈ st.assets := findBy_mem Asset.Id _ _ _ hfa
      have hbal : CountsBalanced (countsAdd (countsAdd
          (if asset0.Counts.length = 0 then submitInitCounts else asset0.Counts)
          asg.State 1) "unfinished" (-1)) :=
        CountsBalanced_submit _ asg.State hstate
          (CountsBalanced_submit_branch asset0 (hinv asset0 hmem0))
      unfold StoreCountsInv
      rw [updateAssignmentUserStep_assets]
      intro b hb
      exact forall_upsertBy Asset.Id _ _ AssetCountsInv hinv (fun _ => hbal) b hb

/-- Closed witness for the C5 theorem on the fixture store. -/
theorem lifecycle_counts_invariant_witness :
    StoreCountsInv (CreateAssignment ce4Store "p" "p-t" "u" 0).2
    ∧ StoreCountsInv (CreateAssetAssignment ce4Store "p" "p-t" "u" "x1").2
    ∧ StoreCountsInv (UpdateAssignment ce4Store "p" (mkFinished "a1" "u" ceSdA)).2 :=
  lifecycle_counts_invariant ce4Store "p" "p-t" "u" "x1" 0 (mkFinished "a1" "u" ceSdA)
    (by decide) (by decide)

end Hive
